import Mathlib

/-!
# Verification of the Chou–Orlandi OT sender (`mpz-ot-core/src/chou_orlandi/sender.rs`)

Shallow embedding of the sender state machine. Conventions of the model:

* `Block` (opaque 128-bit value with XOR) is modelled as `Nat` with `Nat.xor`;
  none of the verified properties depend on the 128-bit width.
* The Ristretto group is modelled abstractly as the additive group `Int` with
  scalar multiplication `Scalar × Point → Point` being integer multiplication
  and the base point `G = 1`; the verified properties are structural and do
  not depend on the concrete group.
* `hash_point` (a random oracle in the spec) is an explicit function argument
  `H : Point → Nat → Block` of every definition that uses it, so every theorem
  holds for an arbitrary hash.
* Rust `&mut self` methods returning `Result` become functions returning the
  updated state paired with an `Except`.
-/

deriving instance DecidableEq for Except

/-- 128-bit block, `mpz_core::Block`; XOR is `Nat.xor`. -/
abbrev Block := Nat

/-- `curve25519_dalek::scalar::Scalar`, modelled abstractly. -/
abbrev Scalar := Int

/-- `curve25519_dalek::ristretto::RistrettoPoint`, modelled abstractly as the
additive cyclic group `Int`. -/
abbrev Point := Int

/-- `RISTRETTO_BASEPOINT_TABLE`: the base point `G`, the generator `1` of the
model group; `s * RISTRETTO_BASEPOINT_TABLE = s * basepoint`. -/
def basepoint : Point := 1

/-- A 32-byte RNG seed (`[u8; 32]`); the byte width plays no role in the
verified properties. -/
abbrev Seed := List Nat

/-- `SenderConfig`: recognized option `receiver_commit`. -/
structure SenderConfig where
  receiver_commit : Bool
deriving DecidableEq, Repr

/-- Modelled from the spec (§4.3, the `TransferId` type is not under `src/`):
a monotone counter whose `next()` yields `0, 1, 2, …`.  The stored value is
the id the next `next()` call returns. -/
structure TransferId where
  id : Nat
deriving DecidableEq, Repr

/-- Modelled from the spec (§4.3): `next()` returns the next transfer id in
the sequence `0, 1, 2, …`, incrementing the stored counter in place.  In the
model it returns the yielded id paired with the updated counter. -/
def TransferId.next (t : TransferId) : TransferId × TransferId :=
  (⟨t.id⟩, ⟨t.id + 1⟩)

/-- `TransferId::default()`: the sequence starts before id `0`. -/
def TransferId.default : TransferId := ⟨0⟩

/-- `chou_orlandi::msgs::SenderSetup`. -/
structure SenderSetup where
  public_key : Point
deriving DecidableEq, Repr

/-- `chou_orlandi::msgs::ReceiverPayload`. -/
structure ReceiverPayload where
  id : TransferId
  blinded_choices : List Point
deriving DecidableEq, Repr

/-- `chou_orlandi::msgs::SenderPayload`; `[Block; 2]` becomes a pair. -/
structure SenderPayload where
  id : TransferId
  payload : List (Block × Block)
deriving DecidableEq, Repr

/-- `chou_orlandi::msgs::ReceiverReveal`; the byte sequence is modelled
directly as its little-endian-first bit sequence (`into_iter_lsb0`). -/
structure ReceiverReveal where
  choices : List Bool
deriving DecidableEq, Repr

/-- The sender's tape of recorded receiver blinded choices. -/
structure Tape where
  receiver_choices : List Point
deriving DecidableEq, Repr

/-- `chou_orlandi::SenderVerifyError`. -/
inductive SenderVerifyError where
  | TapeNotRecorded
  | ChoiceCountMismatch (tape_len revealed_len : Nat)
  | InconsistentChoice
deriving DecidableEq, Repr

/-- `chou_orlandi::SenderError` (the variants exercised by `sender.rs`;
`SenderVerifyError` is embedded via its `From` impl, as the `?` operator
does in `verify_choices`). -/
inductive SenderError where
  | IdMismatch (expected actual : TransferId)
  | CountMismatch (inputs choices : Nat)
  | VerifyError (e : SenderVerifyError)
deriving DecidableEq, Repr

/-- `Sender<state::Initialized>`: config, keypair, optional tape. -/
structure SenderInit where
  config : SenderConfig
  private_key : Scalar
  public_key : Point
  tape : Option Tape
deriving DecidableEq, Repr

/-- `Sender<state::Setup>`: the `state::Setup` fields are inlined. -/
structure SenderS where
  config : SenderConfig
  private_key : Scalar
  public_key : Point
  transfer_id : TransferId
  counter : Nat
  tape : Option Tape
deriving DecidableEq, Repr

/-- `Sender::new(config)`: the keypair is sampled from system entropy; the
model takes the sampled scalar as the explicit argument `entropy`. -/
def Sender.new (entropy : Scalar) (config : SenderConfig) : SenderInit :=
  let tape := if config.receiver_commit then some ⟨[]⟩ else none
  { config := config
    private_key := entropy
    public_key := entropy * basepoint
    tape := tape }

/-- `Sender::new_with_seed(config, seed)`: the private key is drawn from a
ChaCha20 RNG seeded with `seed`; the deterministic draw
`Scalar::random(ChaCha20Rng::from_seed(seed))` is modelled by the explicit
function argument `scalarFromSeed`. -/
def Sender.new_with_seed (scalarFromSeed : Seed → Scalar) (config : SenderConfig)
    (seed : Seed) : SenderInit :=
  let private_key := scalarFromSeed seed
  let public_key := private_key * basepoint
  let tape := if config.receiver_commit then some ⟨[]⟩ else none
  { config := config
    private_key := private_key
    public_key := public_key
    tape := tape }

/-- `Sender::setup(self)`. -/
def Sender.setup (s : SenderInit) : SenderSetup × SenderS :=
  (⟨s.public_key⟩,
   { config := s.config
     private_key := s.private_key
     public_key := s.public_key
     transfer_id := TransferId.default
     counter := 0
     tape := s.tape })

/-- `compute_encryption_keys`: for the `i`-th blinded choice `B` the pair
`[hash_point(a·B, offset+i), hash_point(a·B − a·A, offset+i)]`. -/
def compute_encryption_keys (H : Point → Nat → Block) (private_key : Scalar)
    (public_key : Point) (blinded_choices : List Point) (offset : Nat) :
    List (Block × Block) :=
  -- ys is A^a in [ref1]
  let ys := private_key * public_key
  blinded_choices.enum.map (fun p =>
    -- yr is B^a in [ref1]
    let yr := private_key * p.2
    -- yr - ys == (B/A)^a in [ref1]
    (H yr (offset + p.1), H (yr - ys) (offset + p.1)))

/-- `Sender::<state::Setup>::send(&mut self, inputs, receiver_payload)`:
returns the updated sender paired with the `Result`. -/
def Sender.send (H : Point → Nat → Block) (s : SenderS)
    (inputs : List (Block × Block)) (receiver_payload : ReceiverPayload) :
    SenderS × Except SenderError SenderPayload :=
  -- Check that the transfer id matches (`current_id.next()` increments in place)
  let (expected_id, tid) := s.transfer_id.next
  let s := { s with transfer_id := tid }
  if receiver_payload.id ≠ expected_id then
    (s, .error (.IdMismatch expected_id receiver_payload.id))
  -- Check that the number of inputs matches the number of choices
  else if inputs.length ≠ receiver_payload.blinded_choices.length then
    (s, .error (.CountMismatch inputs.length receiver_payload.blinded_choices.length))
  else
    -- Record the receiver's choices
    let tape := s.tape.map (fun t => ⟨t.receiver_choices ++ receiver_payload.blinded_choices⟩)
    let keys := compute_encryption_keys H s.private_key s.public_key
      receiver_payload.blinded_choices s.counter
    let counter := s.counter + inputs.length
    -- Encrypt the inputs
    let payload := (inputs.zip keys).map (fun q => (q.1.1 ^^^ q.2.1, q.1.2 ^^^ q.2.2))
    ({ s with tape := tape, counter := counter },
     .ok { id := receiver_payload.id, payload := payload })

/-- Modelled from the spec (§4.5, the `Receiver` type is not under `src/`):
the blinded choices produced by `receive_random` on a fresh receiver built by
`Receiver::new_with_seed(ReceiverConfig::default(), seed)` and set up with
the sender's public key `A`: for each choice bit `c_i` the per-OT scalar
`b_i` is drawn deterministically from the seed and `B_i = b_i·G + c_i·A`.
The deterministic scalar sequence is the explicit argument `scalarSeq`. -/
def receiver_receive_random (scalarSeq : Seed → Nat → Scalar) (seed : Seed)
    (A : Point) (choices : List Bool) : List Point :=
  choices.enum.map (fun p =>
    scalarSeq seed p.1 * basepoint + (if p.2 then A else 0))

/-- `Sender::<state::Setup>::verify_choices(self, receiver_seed, receiver_reveal)`. -/
def Sender.verify_choices (scalarSeq : Seed → Nat → Scalar) (s : SenderS)
    (receiver_seed : Seed) (receiver_reveal : ReceiverReveal) :
    Except SenderError (List Bool) :=
  match s.tape with
  | none => .error (.VerifyError .TapeNotRecorded)
  | some tape =>
    let choices := receiver_reveal.choices.take tape.receiver_choices.length
    -- Check that the number of choices matches
    if tape.receiver_choices.length ≠ choices.length then
      .error (.VerifyError (.ChoiceCountMismatch tape.receiver_choices.length choices.length))
    else
      -- Simulate the receiver
      let blinded_choices := receiver_receive_random scalarSeq receiver_seed s.public_key choices
      -- Check that the simulated receiver's choices match the ones recorded in the tape
      if blinded_choices ≠ tape.receiver_choices then
        .error (.VerifyError .InconsistentChoice)
      else
        .ok choices

/-- Fork-join model of the `rayon` variant of `compute_encryption_keys`
(feature `rayon`): the enumerated work list is recursively split in half,
the halves are processed by independent workers, and the two result halves
are joined back in index order, as `par_iter().enumerate().map().collect()`
does for an indexed parallel iterator. -/
def parKeys (H : Point → Nat → Block) (a : Scalar) (ys : Point) (offset : Nat)
    (l : List (Nat × Point)) : List (Block × Block) :=
  if _h : l.length ≤ 1 then
    l.map (fun p => (H (a * p.2) (offset + p.1), H (a * p.2 - ys) (offset + p.1)))
  else
    parKeys H a ys offset (l.take (l.length / 2)) ++
      parKeys H a ys offset (l.drop (l.length / 2))
termination_by l.length
decreasing_by
  all_goals simp only [List.length_take, List.length_drop]
  all_goals omega

/-- The `rayon`-feature variant of `compute_encryption_keys`, with the
parallel map modelled by `parKeys`. -/
def compute_encryption_keys_par (H : Point → Nat → Block) (private_key : Scalar)
    (public_key : Point) (blinded_choices : List Point) (offset : Nat) :
    List (Block × Block) :=
  let ys := private_key * public_key
  parKeys H private_key ys offset blinded_choices.enum

/-- Runs a sender through a sequence of `send` calls, collecting the results:
the streaming use of a `Setup`-state sender. -/
def Sender.runSends (H : Point → Nat → Block) (s : SenderS)
    (batches : List (List (Block × Block) × ReceiverPayload)) :
    SenderS × List (Except SenderError SenderPayload) :=
  match batches with
  | [] => (s, [])
  | b :: rest =>
    let (s1, r) := Sender.send H s b.1 b.2
    let (s2, rs) := Sender.runSends H s1 rest
    (s2, r :: rs)

/-! ## Helper lemmas -/

theorem compute_encryption_keys_length (H : Point → Nat → Block) (a : Scalar)
    (A : Point) (bs : List Point) (off : Nat) :
    (compute_encryption_keys H a A bs off).length = bs.length := by
  simp [compute_encryption_keys, List.enum_length]

theorem compute_encryption_keys_get (H : Point → Nat → Block) (a : Scalar)
    (A : Point) (bs : List Point) (off i : Nat) (hi : i < bs.length) :
    (compute_encryption_keys H a A bs off).get
        ⟨i, by rw [compute_encryption_keys_length]; exact hi⟩ =
      (H (a * bs.get ⟨i, hi⟩) (off + i),
       H (a * bs.get ⟨i, hi⟩ - a * A) (off + i)) := by
  simp [compute_encryption_keys]

theorem parKeys_eq_map (H : Point → Nat → Block) (a : Scalar) (ys : Point)
    (offset : Nat) :
    ∀ (n : Nat) (l : List (Nat × Point)), l.length ≤ n →
      parKeys H a ys offset l =
        l.map (fun p => (H (a * p.2) (offset + p.1), H (a * p.2 - ys) (offset + p.1))) := by
  intro n
  induction n with
  | zero =>
    intro l hl
    rw [parKeys]
    have : l.length ≤ 1 := le_trans hl (by omega)
    simp [this]
  | succ n ih =>
    intro l hl
    rw [parKeys]
    split
    · rfl
    · rename_i h
      rw [ih (l.take (l.length / 2)) (by simp [List.length_take]; omega),
          ih (l.drop (l.length / 2)) (by simp [List.length_drop]; omega),
          ← List.map_append, List.take_append_drop]

theorem compute_encryption_keys_par_eq (H : Point → Nat → Block) (a : Scalar)
    (A : Point) (bs : List Point) (off : Nat) :
    compute_encryption_keys_par H a A bs off = compute_encryption_keys H a A bs off := by
  simp [compute_encryption_keys_par, compute_encryption_keys,
    parKeys_eq_map H a (a * A) off bs.enum.length bs.enum le_rfl]

/-- `send` on a mismatched transfer id: the error, and the state change
(`next()` has already advanced the transfer id when the check runs). -/
theorem send_id_mismatch (H : Point → Nat → Block) (s : SenderS)
    (inputs : List (Block × Block)) (rp : ReceiverPayload)
    (hid : rp.id ≠ s.transfer_id) :
    Sender.send H s inputs rp =
      ({ s with transfer_id := ⟨s.transfer_id.id + 1⟩ },
       .error (.IdMismatch s.transfer_id rp.id)) := by
  simp [Sender.send, TransferId.next, hid]

/-- `send` on a matching id but mismatched lengths: the error, and the state
change (the transfer id is still advanced by the `next()` call). -/
theorem send_count_mismatch (H : Point → Nat → Block) (s : SenderS)
    (inputs : List (Block × Block)) (rp : ReceiverPayload)
    (hid : rp.id = s.transfer_id)
    (hlen : inputs.length ≠ rp.blinded_choices.length) :
    Sender.send H s inputs rp =
      ({ s with transfer_id := ⟨s.transfer_id.id + 1⟩ },
       .error (.CountMismatch inputs.length rp.blinded_choices.length)) := by
  simp [Sender.send, TransferId.next, hid, hlen]

/-- `send` on a matching id and matching lengths: the full success equation. -/
theorem send_ok (H : Point → Nat → Block) (s : SenderS)
    (inputs : List (Block × Block)) (rp : ReceiverPayload)
    (hid : rp.id = s.transfer_id)
    (hlen : inputs.length = rp.blinded_choices.length) :
    Sender.send H s inputs rp =
      ({ s with
          transfer_id := ⟨s.transfer_id.id + 1⟩
          counter := s.counter + inputs.length
          tape := s.tape.map fun t => ⟨t.receiver_choices ++ rp.blinded_choices⟩ },
       .ok { id := rp.id
             payload := (inputs.zip (compute_encryption_keys H s.private_key
                 s.public_key rp.blinded_choices s.counter)).map
               (fun q => (q.1.1 ^^^ q.2.1, q.1.2 ^^^ q.2.2)) }) := by
  simp [Sender.send, TransferId.next, hid, hlen]

/-! ## Concrete instances used by witnesses and counterexamples -/

/-- A concrete hash instantiating the random oracle in witnesses. -/
def Hc : Point → Nat → Block := fun p t => p.natAbs + 3 * t

/-- A concrete deterministic seed-to-scalar draw for witnesses. -/
def seedScalar : Seed → Scalar := fun s => (s.headD 0 : Int) + 7

/-- A concrete deterministic per-OT scalar sequence for witnesses. -/
def seqScalar : Seed → Nat → Scalar := fun s i => (s.headD 0 : Int) + (i : Int) + 1

/-- A concrete `Setup`-state sender with the tape enabled. -/
def sC : SenderS := (Sender.setup (Sender.new_with_seed seedScalar ⟨true⟩ [1])).2

/-! ## Claims -/

/-- C1: for a `Setup`-state sender with counter `cnt`, inputs of length `n`,
and a receiver payload whose id is the expected next transfer id and whose
`blinded_choices` has length `n`, `send` returns `Ok(SenderPayload)` whose id
equals the payload's id and whose payload has length `n` with
`payload[i] = [inputs[i][0] XOR hash_point(a·B_i, cnt+i),
inputs[i][1] XOR hash_point(a·B_i − a·A, cnt+i)]`, and afterwards
`counter = cnt + n`. -/
theorem send_ok_full (H : Point → Nat → Block) (s : SenderS)
    (inputs : List (Block × Block)) (rp : ReceiverPayload) (n : Nat)
    (hn : inputs.length = n) (hid : rp.id = s.transfer_id)
    (hbc : rp.blinded_choices.length = n) :
    ∃ payload : List (Block × Block),
      (Sender.send H s inputs rp).2 = Except.ok ⟨rp.id, payload⟩ ∧
      payload.length = n ∧
      (∀ i, i < n →
        ∃ inp B, inputs[i]? = some inp ∧ rp.blinded_choices[i]? = some B ∧
          payload[i]? = some
            (inp.1 ^^^ H (s.private_key * B) (s.counter + i),
             inp.2 ^^^ H (s.private_key * B - s.private_key * s.public_key)
               (s.counter + i))) ∧
      (Sender.send H s inputs rp).1.counter = s.counter + n := by
  rw [send_ok H s inputs rp hid (by omega)]
  refine ⟨_, rfl, ?_, ?_, by simp; omega⟩
  · simp [List.length_zip, compute_encryption_keys_length]
    omega
  · intro i hi
    have h1 : i < inputs.length := by omega
    have h2 : i < rp.blinded_choices.length := by omega
    refine ⟨inputs.get ⟨i, h1⟩, rp.blinded_choices.get ⟨i, h2⟩,
      by simp [List.getElem?_eq_getElem h1], by simp [List.getElem?_eq_getElem h2], ?_⟩
    have hz : i < ((inputs.zip (compute_encryption_keys H s.private_key s.public_key
        rp.blinded_choices s.counter)).map
          (fun q => (q.1.1 ^^^ q.2.1, q.1.2 ^^^ q.2.2))).length := by
      simp [List.length_zip, compute_encryption_keys_length]
      omega
    rw [List.getElem?_eq_getElem hz]
    have hk := compute_encryption_keys_get H s.private_key s.public_key
      rp.blinded_choices s.counter i h2
    simp only [List.get_eq_getElem] at hk
    simp only [List.getElem_map, List.getElem_zip, hk, List.get_eq_getElem]

/-- Witness for C1 at a concrete sender, inputs and payload. -/
theorem send_ok_full_witness :
    ∃ payload : List (Block × Block),
      (Sender.send Hc sC [(1, 2), (3, 4)] ⟨⟨0⟩, [3, 5]⟩).2 =
        Except.ok ⟨(⟨0⟩ : TransferId), payload⟩ ∧
      payload.length = 2 ∧
      (∀ i, i < 2 →
        ∃ inp B, [((1 : Block), (2 : Block)), (3, 4)][i]? = some inp ∧
          [(3 : Point), 5][i]? = some B ∧
          payload[i]? = some
            (inp.1 ^^^ Hc (sC.private_key * B) (sC.counter + i),
             inp.2 ^^^ Hc (sC.private_key * B - sC.private_key * sC.public_key)
               (sC.counter + i))) ∧
      (Sender.send Hc sC [(1, 2), (3, 4)] ⟨⟨0⟩, [3, 5]⟩).1.counter = sC.counter + 2 :=
  send_ok_full Hc sC [(1, 2), (3, 4)] ⟨⟨0⟩, [3, 5]⟩ 2 (by decide) (by decide) (by decide)

/-- C2 (amended): on a mismatched transfer id, `send` returns
`Err(IdMismatch(expected, actual))` and leaves `counter` and the tape
unchanged, but the transfer id has been advanced by the `next()` call made
before the check, so a retry with the originally expected id fails again
with `IdMismatch`. -/
theorem send_id_mismatch_spec (H : Point → Nat → Block) (s : SenderS)
    (inputs : List (Block × Block)) (rp : ReceiverPayload)
    (hid : rp.id ≠ s.transfer_id) :
    (Sender.send H s inputs rp).2 =
      Except.error (.IdMismatch s.transfer_id rp.id) ∧
    (Sender.send H s inputs rp).1.counter = s.counter ∧
    (Sender.send H s inputs rp).1.tape = s.tape ∧
    (Sender.send H s inputs rp).1.transfer_id = ⟨s.transfer_id.id + 1⟩ ∧
    (∀ (inputs2 : List (Block × Block)) (rp2 : ReceiverPayload),
      rp2.id = s.transfer_id →
      (Sender.send H (Sender.send H s inputs rp).1 inputs2 rp2).2 =
        Except.error (.IdMismatch ⟨s.transfer_id.id + 1⟩ rp2.id)) := by
  rw [send_id_mismatch H s inputs rp hid]
  refine ⟨rfl, rfl, rfl, rfl, ?_⟩
  intro inputs2 rp2 hid2
  have : rp2.id ≠ (⟨s.transfer_id.id + 1⟩ : TransferId) := by
    rw [hid2]
    intro hcon
    have := congrArg TransferId.id hcon
    simp at this
  rw [send_id_mismatch H _ inputs2 rp2 this]

/-- C2 counterexample: a concrete id-mismatched `send` does change the
sender's state (the transfer id advances), and a retry with the originally
expected id `0` fails with `IdMismatch(1, 0)` instead of succeeding. -/
theorem send_id_mismatch_cex :
    (Sender.send Hc sC [] ⟨⟨2⟩, []⟩).2 =
      Except.error (.IdMismatch ⟨0⟩ ⟨2⟩) ∧
    ¬ ((Sender.send Hc sC [] ⟨⟨2⟩, []⟩).1 = sC) ∧
    (Sender.send Hc (Sender.send Hc sC [] ⟨⟨2⟩, []⟩).1 [] ⟨⟨0⟩, []⟩).2 =
      Except.error (.IdMismatch ⟨1⟩ ⟨0⟩) := by
  decide

/-- Witness for C2 (amended) at a concrete sender and payload. -/
theorem send_id_mismatch_spec_witness :
    (Sender.send Hc sC [] ⟨⟨3⟩, []⟩).2 =
      Except.error (.IdMismatch sC.transfer_id ⟨3⟩) ∧
    (Sender.send Hc sC [] ⟨⟨3⟩, []⟩).1.counter = sC.counter ∧
    (Sender.send Hc sC [] ⟨⟨3⟩, []⟩).1.tape = sC.tape ∧
    (Sender.send Hc sC [] ⟨⟨3⟩, []⟩).1.transfer_id = ⟨sC.transfer_id.id + 1⟩ ∧
    (∀ (inputs2 : List (Block × Block)) (rp2 : ReceiverPayload),
      rp2.id = sC.transfer_id →
      (Sender.send Hc (Sender.send Hc sC [] ⟨⟨3⟩, []⟩).1 inputs2 rp2).2 =
        Except.error (.IdMismatch ⟨sC.transfer_id.id + 1⟩ rp2.id)) :=
  send_id_mismatch_spec Hc sC [] ⟨⟨3⟩, []⟩ (by decide)

/-- C3 (amended): on a matching id but mismatched input/choice counts,
`send` returns `Err(CountMismatch(inputs.len, blinded_choices.len))` and
leaves `counter` and the tape unchanged, but the transfer id has been
advanced by the `next()` call made before the checks. -/
theorem send_count_mismatch_spec (H : Point → Nat → Block) (s : SenderS)
    (inputs : List (Block × Block)) (rp : ReceiverPayload)
    (hid : rp.id = s.transfer_id)
    (hlen : inputs.length ≠ rp.blinded_choices.length) :
    (Sender.send H s inputs rp).2 =
      Except.error (.CountMismatch inputs.length rp.blinded_choices.length) ∧
    (Sender.send H s inputs rp).1.counter = s.counter ∧
    (Sender.send H s inputs rp).1.tape = s.tape ∧
    (Sender.send H s inputs rp).1.transfer_id = ⟨s.transfer_id.id + 1⟩ := by
  rw [send_count_mismatch H s inputs rp hid hlen]
  exact ⟨rfl, rfl, rfl, rfl⟩

/-- C3 counterexample: the spec's own scenario (3 inputs, 4 choices) yields
`CountMismatch(3, 4)` but does change the sender's state: the transfer id
advances. -/
theorem send_count_mismatch_cex :
    (Sender.send Hc sC [(0, 0), (0, 0), (0, 0)] ⟨⟨0⟩, [1, 2, 3, 4]⟩).2 =
      Except.error (.CountMismatch 3 4) ∧
    ¬ ((Sender.send Hc sC [(0, 0), (0, 0), (0, 0)] ⟨⟨0⟩, [1, 2, 3, 4]⟩).1.transfer_id
        = sC.transfer_id) := by
  decide

/-- Witness for C3 (amended) at a concrete sender and payload. -/
theorem send_count_mismatch_spec_witness :
    (Sender.send Hc sC [(0, 0)] ⟨⟨0⟩, [1, 2]⟩).2 =
      Except.error (.CountMismatch 1 2) ∧
    (Sender.send Hc sC [(0, 0)] ⟨⟨0⟩, [1, 2]⟩).1.counter = sC.counter ∧
    (Sender.send Hc sC [(0, 0)] ⟨⟨0⟩, [1, 2]⟩).1.tape = sC.tape ∧
    (Sender.send Hc sC [(0, 0)] ⟨⟨0⟩, [1, 2]⟩).1.transfer_id =
      ⟨sC.transfer_id.id + 1⟩ := by
  have h := send_count_mismatch_spec Hc sC [(0, 0)] ⟨⟨0⟩, [1, 2]⟩ (by decide) (by decide)
  exact h

/-- Unfolding `verify_choices` when the tape is absent. -/
theorem verify_choices_tape_none (scalarSeq : Seed → Nat → Scalar) (s : SenderS)
    (rseed : Seed) (reveal : ReceiverReveal) (h : s.tape = none) :
    Sender.verify_choices scalarSeq s rseed reveal =
      Except.error (.VerifyError .TapeNotRecorded) := by
  simp [Sender.verify_choices, h]

/-- Unfolding `verify_choices` when the tape is present. -/
theorem verify_choices_tape_some (scalarSeq : Seed → Nat → Scalar) (s : SenderS)
    (t : Tape) (rseed : Seed) (reveal : ReceiverReveal) (h : s.tape = some t) :
    Sender.verify_choices scalarSeq s rseed reveal =
      (if t.receiver_choices.length ≠ (reveal.choices.take t.receiver_choices.length).length then
        Except.error (.VerifyError (.ChoiceCountMismatch t.receiver_choices.length
          (reveal.choices.take t.receiver_choices.length).length))
      else if receiver_receive_random scalarSeq rseed s.public_key
          (reveal.choices.take t.receiver_choices.length) ≠ t.receiver_choices then
        Except.error (.VerifyError .InconsistentChoice)
      else Except.ok (reveal.choices.take t.receiver_choices.length)) := by
  simp only [Sender.verify_choices, h]

/-- C10: `send` never changes the sender's `private_key`, `public_key` or
`config`, whether it returns `Ok` or `Err`; only `transfer_id`, `counter`
and the tape (the remaining fields of the `Setup`-state sender) can change. -/
theorem send_frame (H : Point → Nat → Block) (s : SenderS)
    (inputs : List (Block × Block)) (rp : ReceiverPayload) :
    (Sender.send H s inputs rp).1.config = s.config ∧
    (Sender.send H s inputs rp).1.private_key = s.private_key ∧
    (Sender.send H s inputs rp).1.public_key = s.public_key := by
  by_cases hid : rp.id = s.transfer_id
  · by_cases hlen : inputs.length = rp.blinded_choices.length
    · rw [send_ok H s inputs rp hid hlen]
      exact ⟨rfl, rfl, rfl⟩
    · rw [send_count_mismatch H s inputs rp hid hlen]
      exact ⟨rfl, rfl, rfl⟩
  · rw [send_id_mismatch H s inputs rp hid]
    exact ⟨rfl, rfl, rfl⟩

/-- Witness for C10 at a concrete sender and payload. -/
theorem send_frame_witness :
    (Sender.send Hc sC [] ⟨⟨1⟩, []⟩).1.config = sC.config ∧
    (Sender.send Hc sC [] ⟨⟨1⟩, []⟩).1.private_key = sC.private_key ∧
    (Sender.send Hc sC [] ⟨⟨1⟩, []⟩).1.public_key = sC.public_key :=
  send_frame Hc sC [] ⟨⟨1⟩, []⟩

/-- C4: a sender constructed with `receiver_commit = true` starts with an
empty tape and counter `0`; each successful `send` appends exactly the
batch's blinded choices to the tape, in order; a failed `send` appends
nothing; and the invariant `|tape| = counter` is preserved by every
successful `send`. -/
theorem tape_tracks_counter (H : Point → Nat → Block) :
    (∀ (f : Seed → Scalar) (cfg : SenderConfig) (seed : Seed),
      cfg.receiver_commit = true →
      (Sender.setup (Sender.new_with_seed f cfg seed)).2.tape = some ⟨[]⟩ ∧
      (Sender.setup (Sender.new_with_seed f cfg seed)).2.counter = 0) ∧
    (∀ (s : SenderS) (t : Tape) (inputs : List (Block × Block)) (rp : ReceiverPayload),
      s.tape = some t →
      (∀ sp, (Sender.send H s inputs rp).2 = Except.ok sp →
        (Sender.send H s inputs rp).1.tape =
          some ⟨t.receiver_choices ++ rp.blinded_choices⟩) ∧
      (∀ e, (Sender.send H s inputs rp).2 = Except.error e →
        (Sender.send H s inputs rp).1.tape = some t) ∧
      (t.receiver_choices.length = s.counter →
        ∀ sp, (Sender.send H s inputs rp).2 = Except.ok sp →
        ∃ t2, (Sender.send H s inputs rp).1.tape = some t2 ∧
          t2.receiver_choices.length = (Sender.send H s inputs rp).1.counter)) := by
  constructor
  · intro f cfg seed hc
    exact ⟨by simp [Sender.setup, Sender.new_with_seed, hc], rfl⟩
  · intro s t inputs rp ht
    by_cases hid : rp.id = s.transfer_id
    · by_cases hlen : inputs.length = rp.blinded_choices.length
      · rw [send_ok H s inputs rp hid hlen]
        refine ⟨fun sp _ => by simp [ht], fun e he => by simp at he, ?_⟩
        intro hinv sp _
        refine ⟨⟨t.receiver_choices ++ rp.blinded_choices⟩, by simp [ht], ?_⟩
        simp only [List.length_append]
        omega
      · rw [send_count_mismatch H s inputs rp hid hlen]
        exact ⟨fun sp hsp => by simp at hsp, fun e _ => ht,
          fun hinv sp hsp => by simp at hsp⟩
    · rw [send_id_mismatch H s inputs rp hid]
      exact ⟨fun sp hsp => by simp at hsp, fun e _ => ht,
        fun hinv sp hsp => by simp at hsp⟩

/-- Witness for C4: a concrete successful `send` appends the batch's blinded
choices to the tape. -/
theorem tape_tracks_counter_witness :
    (Sender.send Hc sC [(1, 2)] ⟨⟨0⟩, [4]⟩).1.tape = some ⟨[] ++ [4]⟩ :=
  ((tape_tracks_counter Hc).2 sC ⟨[]⟩ [(1, 2)] ⟨⟨0⟩, [4]⟩ (by decide)).1
    ⟨⟨0⟩, [(1 ^^^ 32, 2 ^^^ 32)]⟩ (by decide)

/-- C7: a sender holds a tape iff its config has `receiver_commit = true`
(for both `new` and `new_with_seed`, preserved through `setup`), and
`verify_choices` returns `Err(TapeNotRecorded)` exactly when the tape is
absent, i.e. exactly when the sender was constructed with
`receiver_commit = false`. -/
theorem tape_iff_receiver_commit (e : Scalar) (f : Seed → Scalar)
    (scalarSeq : Seed → Nat → Scalar) (cfg : SenderConfig) (seed rseed : Seed)
    (reveal : ReceiverReveal) :
    ((Sender.new e cfg).tape.isSome ↔ cfg.receiver_commit = true) ∧
    ((Sender.new_with_seed f cfg seed).tape.isSome ↔ cfg.receiver_commit = true) ∧
    (∀ si : SenderInit, (Sender.setup si).2.tape = si.tape) ∧
    (∀ s : SenderS,
      Sender.verify_choices scalarSeq s rseed reveal =
          Except.error (.VerifyError .TapeNotRecorded) ↔ s.tape = none) ∧
    (Sender.verify_choices scalarSeq
        (Sender.setup (Sender.new_with_seed f cfg seed)).2 rseed reveal =
        Except.error (.VerifyError .TapeNotRecorded) ↔ cfg.receiver_commit = false) := by
  have key : ∀ s : SenderS,
      Sender.verify_choices scalarSeq s rseed reveal =
        Except.error (.VerifyError .TapeNotRecorded) ↔ s.tape = none := by
    intro s
    constructor
    · intro hv
      cases hs : s.tape with
      | none => rfl
      | some t =>
        rw [verify_choices_tape_some scalarSeq s t rseed reveal hs] at hv
        split at hv
        · simp at hv
        · split at hv <;> simp at hv
    · intro hs
      exact verify_choices_tape_none scalarSeq s rseed reveal hs
  refine ⟨?_, ?_, fun si => rfl, key, ?_⟩
  · cases hc : cfg.receiver_commit <;> simp [Sender.new, hc]
  · cases hc : cfg.receiver_commit <;> simp [Sender.new_with_seed, hc]
  · rw [key]
    cases hc : cfg.receiver_commit <;>
      simp [Sender.setup, Sender.new_with_seed, hc]

/-- Witness for C7 at concrete configs and inputs. -/
theorem tape_iff_receiver_commit_witness :
    ((Sender.new 3 ⟨false⟩).tape.isSome ↔ (⟨false⟩ : SenderConfig).receiver_commit = true) ∧
    ((Sender.new_with_seed seedScalar ⟨false⟩ [2]).tape.isSome ↔
      (⟨false⟩ : SenderConfig).receiver_commit = true) ∧
    (∀ si : SenderInit, (Sender.setup si).2.tape = si.tape) ∧
    (∀ s : SenderS,
      Sender.verify_choices seqScalar s [2] ⟨[true]⟩ =
          Except.error (.VerifyError .TapeNotRecorded) ↔ s.tape = none) ∧
    (Sender.verify_choices seqScalar
        (Sender.setup (Sender.new_with_seed seedScalar ⟨false⟩ [2])).2 [2] ⟨[true]⟩ =
        Except.error (.VerifyError .TapeNotRecorded) ↔
      (⟨false⟩ : SenderConfig).receiver_commit = false) :=
  tape_iff_receiver_commit 3 seedScalar seqScalar ⟨false⟩ [2] [2] ⟨[true]⟩

/-- A concrete `Setup`-state sender holding a one-entry tape. -/
def sT : SenderS :=
  { config := ⟨true⟩
    private_key := 8
    public_key := 8
    transfer_id := ⟨1⟩
    counter := 1
    tape := some ⟨[4]⟩ }

/-- C5: with a tape present, `verify_choices` truncates the revealed bit
sequence to the first `tape.len` bits and fails with `ChoiceCountMismatch`
exactly when the reveal holds fewer than `tape.len` bits; a longer reveal is
not rejected for length, the extra bits being ignored. -/
theorem verify_choices_length_check (scalarSeq : Seed → Nat → Scalar)
    (s : SenderS) (t : Tape) (rseed : Seed) (reveal : ReceiverReveal)
    (ht : s.tape = some t) :
    (reveal.choices.length < t.receiver_choices.length →
      Sender.verify_choices scalarSeq s rseed reveal =
        Except.error (.VerifyError
          (.ChoiceCountMismatch t.receiver_choices.length reveal.choices.length))) ∧
    (t.receiver_choices.length ≤ reveal.choices.length →
      (∀ a b, Sender.verify_choices scalarSeq s rseed reveal ≠
        Except.error (.VerifyError (.ChoiceCountMismatch a b))) ∧
      Sender.verify_choices scalarSeq s rseed reveal =
        Sender.verify_choices scalarSeq s rseed
          ⟨reveal.choices.take t.receiver_choices.length⟩) := by
  constructor
  · intro hlt
    rw [verify_choices_tape_some scalarSeq s t rseed reveal ht]
    have h1 : (reveal.choices.take t.receiver_choices.length).length
        = reveal.choices.length := by
      simp [List.length_take]
      omega
    simp only [h1]
    rw [if_pos (by omega)]
  · intro hle
    have h1 : (reveal.choices.take t.receiver_choices.length).length
        = t.receiver_choices.length := by
      simp [List.length_take]
      omega
    constructor
    · intro a b
      rw [verify_choices_tape_some scalarSeq s t rseed reveal ht]
      simp only [h1]
      rw [if_neg (by omega)]
      split <;> simp
    · rw [verify_choices_tape_some scalarSeq s t rseed reveal ht,
        verify_choices_tape_some scalarSeq s t rseed
          ⟨reveal.choices.take t.receiver_choices.length⟩ ht]
      simp [List.take_take]

/-- Witness for C5 at a concrete sender (tape of length 1) and a two-bit
reveal. -/
theorem verify_choices_length_check_witness :
    ((2 : Nat) < 1 →
      Sender.verify_choices seqScalar sT [2] ⟨[true, false]⟩ =
        Except.error (.VerifyError (.ChoiceCountMismatch 1 2))) ∧
    ((1 : Nat) ≤ 2 →
      (∀ a b, Sender.verify_choices seqScalar sT [2] ⟨[true, false]⟩ ≠
        Except.error (.VerifyError (.ChoiceCountMismatch a b))) ∧
      Sender.verify_choices seqScalar sT [2] ⟨[true, false]⟩ =
        Sender.verify_choices seqScalar sT [2] ⟨[true, false].take 1⟩) :=
  verify_choices_length_check seqScalar sT ⟨[4]⟩ [2] ⟨[true, false]⟩ rfl

/-- C6: with a tape present and a reveal passing the length check,
`verify_choices` fails with `InconsistentChoice` exactly when the blinded
choices of the simulated receiver (seeded with the revealed seed, set up
with the sender's public key, run on the truncated choice vector) differ
from the tape; otherwise it returns exactly the truncated choice vector. -/
theorem verify_choices_consistency (scalarSeq : Seed → Nat → Scalar)
    (s : SenderS) (t : Tape) (rseed : Seed) (reveal : ReceiverReveal)
    (ht : s.tape = some t)
    (hlen : t.receiver_choices.length ≤ reveal.choices.length) :
    (Sender.verify_choices scalarSeq s rseed reveal =
        Except.error (.VerifyError .InconsistentChoice) ↔
      receiver_receive_random scalarSeq rseed s.public_key
          (reveal.choices.take t.receiver_choices.length) ≠ t.receiver_choices) ∧
    (receiver_receive_random scalarSeq rseed s.public_key
        (reveal.choices.take t.receiver_choices.length) = t.receiver_choices →
      Sender.verify_choices scalarSeq s rseed reveal =
        Except.ok (reveal.choices.take t.receiver_choices.length)) := by
  have h1 : (reveal.choices.take t.receiver_choices.length).length
      = t.receiver_choices.length := by
    simp [List.length_take]
    omega
  rw [verify_choices_tape_some scalarSeq s t rseed reveal ht]
  rw [if_neg (by omega)]
  by_cases hsim : receiver_receive_random scalarSeq rseed s.public_key
      (reveal.choices.take t.receiver_choices.length) = t.receiver_choices
  · rw [if_neg (by simp [hsim])]
    exact ⟨by simp [hsim], fun _ => rfl⟩
  · rw [if_pos hsim]
    exact ⟨by simp [hsim], fun h => absurd h hsim⟩

/-- Witness for C6 at a concrete sender and a one-bit reveal. -/
theorem verify_choices_consistency_witness :
    (Sender.verify_choices seqScalar sT [2] ⟨[true]⟩ =
        Except.error (.VerifyError .InconsistentChoice) ↔
      receiver_receive_random seqScalar [2] sT.public_key ([true].take 1) ≠ [4]) ∧
    (receiver_receive_random seqScalar [2] sT.public_key ([true].take 1) = [4] →
      Sender.verify_choices seqScalar sT [2] ⟨[true]⟩ =
        Except.ok ([true].take 1)) :=
  verify_choices_consistency seqScalar sT ⟨[4]⟩ [2] ⟨[true]⟩ rfl (by decide)

/-- C8: two senders built by `new_with_seed` from the same config and seed
have identical private and public keys, and running both through `setup`
and the same sequence of `send` calls produces identical outputs: the
construction draws no entropy beyond the seed. -/
theorem new_with_seed_deterministic (H : Point → Nat → Block)
    (f : Seed → Scalar) (cfg : SenderConfig) (seed : Seed)
    (batches : List (List (Block × Block) × ReceiverPayload))
    (s1 s2 : SenderInit)
    (h1 : s1 = Sender.new_with_seed f cfg seed)
    (h2 : s2 = Sender.new_with_seed f cfg seed) :
    s1.private_key = s2.private_key ∧ s1.public_key = s2.public_key ∧
    Sender.runSends H (Sender.setup s1).2 batches =
      Sender.runSends H (Sender.setup s2).2 batches := by
  subst h1
  subst h2
  exact ⟨rfl, rfl, rfl⟩

/-- Witness for C8 at a concrete seed, config and batch sequence. -/
theorem new_with_seed_deterministic_witness :
    (Sender.new_with_seed seedScalar ⟨false⟩ [3]).private_key =
      (Sender.new_with_seed seedScalar ⟨false⟩ [3]).private_key ∧
    (Sender.new_with_seed seedScalar ⟨false⟩ [3]).public_key =
      (Sender.new_with_seed seedScalar ⟨false⟩ [3]).public_key ∧
    Sender.runSends Hc (Sender.setup (Sender.new_with_seed seedScalar ⟨false⟩ [3])).2
        [([(1, 2)], ⟨⟨0⟩, [5]⟩)] =
      Sender.runSends Hc (Sender.setup (Sender.new_with_seed seedScalar ⟨false⟩ [3])).2
        [([(1, 2)], ⟨⟨0⟩, [5]⟩)] :=
  new_with_seed_deterministic Hc seedScalar ⟨false⟩ [3] [([(1, 2)], ⟨⟨0⟩, [5]⟩)]
    (Sender.new_with_seed seedScalar ⟨false⟩ [3])
    (Sender.new_with_seed seedScalar ⟨false⟩ [3]) rfl rfl

/-- C9: the fork-join parallel variant of `compute_encryption_keys` equals
the sequential one; the output has the length of `blinded_choices` and its
`i`-th element depends only on the `i`-th blinded choice and `offset + i`,
with order preserved. -/
theorem par_seq_keys_equiv (H : Point → Nat → Block) (a : Scalar) (A : Point)
    (bs : List Point) (off : Nat) :
    compute_encryption_keys_par H a A bs off =
      compute_encryption_keys H a A bs off ∧
    (compute_encryption_keys_par H a A bs off).length = bs.length ∧
    (∀ i, i < bs.length →
      ∃ B, bs[i]? = some B ∧
        (compute_encryption_keys_par H a A bs off)[i]? =
          some (H (a * B) (off + i), H (a * B - a * A) (off + i))) := by
  refine ⟨compute_encryption_keys_par_eq H a A bs off, ?_, ?_⟩
  · rw [compute_encryption_keys_par_eq, compute_encryption_keys_length]
  · intro i hi
    refine ⟨bs.get ⟨i, hi⟩, by simp [List.getElem?_eq_getElem hi], ?_⟩
    rw [compute_encryption_keys_par_eq]
    rw [List.getElem?_eq_getElem (by rw [compute_encryption_keys_length]; exact hi)]
    have hk := compute_encryption_keys_get H a A bs off i hi
    simp only [List.get_eq_getElem] at hk
    rw [hk]
    simp only [List.get_eq_getElem]

/-- Witness for C9 at a concrete key and choice list. -/
theorem par_seq_keys_equiv_witness :
    compute_encryption_keys_par Hc 8 8 [2, 5] 0 =
      compute_encryption_keys Hc 8 8 [2, 5] 0 ∧
    (compute_encryption_keys_par Hc 8 8 [2, 5] 0).length = 2 ∧
    (∀ i, i < 2 →
      ∃ B, [(2 : Point), 5][i]? = some B ∧
        (compute_encryption_keys_par Hc 8 8 [2, 5] 0)[i]? =
          some (Hc (8 * B) (0 + i), Hc (8 * B - 8 * 8) (0 + i))) :=
  par_seq_keys_equiv Hc 8 8 [2, 5] 0
